import Mathlib

/-! Flow instance state core (`instance/instance.go`)

A shallow embedding of the Go type `Instance` and its methods, followed by
theorems about them.  Methods with a pointer receiver are rendered in explicit
state-passing style: they take the instance and return the updated instance next
to their Go results.  The pointer `inst.master` is rendered by embedding the
`IndependentInstance` it points to, so that the shared change tracker is part of
the state a method transforms.
-/

set_option autoImplicit false

namespace Flow

/-! ## Go maps -/

/-- A Go `map[κ]α`, as the list of its entries.  A nil map, where the code tells
it apart from an empty one, is `none : Option (GoMap κ α)`. -/
abbrev GoMap (κ : Type) (α : Type) := List (κ × α)

namespace GoMap

variable {κ α : Type} [DecidableEq κ]

/-- The comma-ok read `v, ok := m[x]`: `some v` when `ok`, `none` otherwise. -/
def get : GoMap κ α → κ → Option α
  | [], _ => none
  | (k, v) :: m, x => if k = x then some v else get m x

/-- The assignment `m[x] = a`. -/
def set : GoMap κ α → κ → α → GoMap κ α
  | [], x, a => [(x, a)]
  | (k, v) :: m, x, a => if k = x then (k, a) :: m else (k, v) :: set m x a

/-- The builtin `delete(m, x)`. -/
def delete : GoMap κ α → κ → GoMap κ α
  | [], _ => []
  | (k, v) :: m, x => if k = x then delete m x else (k, v) :: delete m x

/-- A read of a map that may be nil: reading a nil map finds nothing. -/
def getNil : Option (GoMap κ α) → κ → Option α
  | none, _ => none
  | some m, x => get m x

end GoMap

/-! ## Collaborators of the instance -/

/-- The Go `error` interface: `none` is the nil error, `some msg` an error. -/
abbrev GoError := Option String

/-- Modelled from the spec: `model.FlowStatus`, whose declaration is outside the
source file; an integer-coded status. -/
abbrev FlowStatus := Int

/-- Modelled from the spec: the change kinds `CtAdd`, `CtUpd`, `CtDel` (Add,
Update, Delete), whose declaration is outside the source file. -/
inductive ChgType where
  | CtAdd
  | CtUpd
  | CtDel
  deriving DecidableEq, Repr

/-- Modelled from the spec: the execution state of a task instance. -/
inductive TaskStatus where
  | Waiting
  | Ready
  | Executing
  | Done
  | Skipped
  | Failed
  deriving DecidableEq, Repr

/-- Modelled from the spec: the activation state of a link instance. -/
inductive LinkStatus where
  | Pending
  | Activated
  | Skipped
  deriving DecidableEq, Repr

/-- Modelled from the spec: `definition.Link`, of which the source uses `ID()`. -/
structure Link where
  id : Int
  deriving DecidableEq, Repr

/-- Modelled from the spec: `definition.Task`, of which the source uses `ID()`
and `FromLinks()` (the outbound links, in definition order). -/
structure Task where
  id : String
  fromLinks : List Link
  deriving DecidableEq, Repr

/-- The accessor `link.ID()`. -/
def Link.ID (link : Link) : Int := link.id

/-- The accessor `task.ID()`. -/
def Task.ID (task : Task) : String := task.id

/-- The accessor `task.FromLinks()`. -/
def Task.FromLinks (task : Task) : List Link := task.fromLinks

/-- Modelled from the spec: the run-time record of one task: its definition id,
the ordinal of the owning flow instance and its execution state. -/
structure TaskInst where
  taskID : String
  flowInst : Int
  status : TaskStatus
  deriving DecidableEq, Repr

/-- Modelled from the spec: the run-time record of one link: its definition id,
the ordinal of the owning flow instance and its activation state. -/
structure LinkInst where
  linkID : Int
  flowInst : Int
  status : LinkStatus
  deriving DecidableEq, Repr

/-- The literal `TaskInstChange{ChgType, ID, TaskInst}` the source builds; the
`TaskInst` pointer is nil (`none`) in a Delete entry. -/
structure TaskInstChange where
  ChgType : ChgType
  ID : String
  TaskInst : Option TaskInst
  deriving DecidableEq, Repr

/-- The literal `LinkInstChange{ChgType, ID, LinkInst}` the source builds; the
`LinkInst` pointer is nil (`none`) in a Delete entry. -/
structure LinkInstChange where
  ChgType : ChgType
  ID : Int
  LinkInst : Option LinkInst
  deriving DecidableEq, Repr

/-- The data types of `data.Type` the attribute constructor is given. -/
inductive DataType where
  | TypeAny
  | TypeString
  | TypeInt
  | TypeBool
  deriving DecidableEq, Repr

/-- The value `data.NewAttribute(name, type, value)` builds. -/
structure Attribute (V : Type) where
  name : String
  type : DataType
  value : V
  deriving DecidableEq, Repr

/-- The constructor `data.NewAttribute`. -/
def NewAttribute {V : Type} (name : String) (type : DataType) (value : V) : Attribute V :=
  { name := name, type := type, value := value }

/-- Modelled from the spec: a change entry, a tagged variant of task, link,
attribute and status changes. -/
inductive Change (V : Type) where
  | task (c : TaskInstChange)
  | link (c : LinkInstChange)
  | attr (chgType : ChgType) (a : Attribute V)
  | status (s : FlowStatus)
  deriving DecidableEq, Repr

/-- Modelled from the spec: the change tracker, which is outside the source
file: an append-only ordered log of change entries, each tagged with the ordinal
of the sub-flow that owns it. -/
structure InstanceChangeTracker (V : Type) where
  entries : List (Int × Change V)
  deriving DecidableEq, Repr

namespace InstanceChangeTracker

variable {V : Type}

/-- Modelled from the spec: `trackTaskData(ordinal, entry)` appends the entry. -/
def trackTaskData (ct : InstanceChangeTracker V) (subFlowId : Int) (c : TaskInstChange) :
    InstanceChangeTracker V :=
  { entries := ct.entries ++ [(subFlowId, Change.task c)] }

/-- Modelled from the spec: `trackLinkData(ordinal, entry)` appends the entry. -/
def trackLinkData (ct : InstanceChangeTracker V) (subFlowId : Int) (c : LinkInstChange) :
    InstanceChangeTracker V :=
  { entries := ct.entries ++ [(subFlowId, Change.link c)] }

/-- Modelled from the spec: `AttrChange(ordinal, kind, attribute)` appends the
attribute change. -/
def AttrChange (ct : InstanceChangeTracker V) (subFlowId : Int) (chgType : ChgType)
    (a : Attribute V) : InstanceChangeTracker V :=
  { entries := ct.entries ++ [(subFlowId, Change.attr chgType a)] }

/-- Modelled from the spec: `SetStatus(ordinal, status)` appends the status
change. -/
def SetStatus (ct : InstanceChangeTracker V) (subFlowId : Int) (status : FlowStatus) :
    InstanceChangeTracker V :=
  { entries := ct.entries ++ [(subFlowId, Change.status status)] }

/-- The ordered change log of one sub-flow ordinal. -/
def changesOf (ct : InstanceChangeTracker V) (subFlowId : Int) : List (Change V) :=
  (ct.entries.filter (fun e => decide (e.1 = subFlowId))).map (fun e => e.2)

end InstanceChangeTracker

/-- The fields of `IndependentInstance` the source reads through `inst.master`:
the root id, the shared change tracker and the tracking flag. -/
structure IndependentInstance (V : Type) where
  id : String
  ChangeTracker : InstanceChangeTracker V
  trackingChanges : Bool
  deriving DecidableEq, Repr

/-- The input/output metadata `metadata.IOMetadata`; either map may be nil. -/
structure IOMetadata (V : Type) where
  Input : Option (GoMap String V)
  Output : Option (GoMap String V)
  deriving DecidableEq, Repr

/-- Modelled from the spec: the flow definition, of which the source uses
`Name()`, `Metadata()` (possibly nil) and `GetAttr(name)`, the declared default
of an attribute. -/
structure Definition (V : Type) where
  name : String
  metadata : Option (IOMetadata V)
  attrs : Option (GoMap String V)
  deriving DecidableEq, Repr

namespace Definition

variable {V : Type}

/-- The accessor `flowDef.Name()`. -/
def Name (d : Definition V) : String := d.name

/-- The accessor `flowDef.Metadata()`. -/
def Metadata (d : Definition V) : Option (IOMetadata V) := d.metadata

/-- Modelled from the spec: `getAttr(name) → (value, found)`, the declared
default for the name; `none` is `found = false`. -/
def GetAttr (d : Definition V) (name : String) : Option V := GoMap.getNil d.attrs name

end Definition

/-- Modelled from the spec: the result handler collaborator, as the sequence of
results delivered to it. -/
structure ResultHandler (V : Type) where
  handled : List (Option (GoMap String V) × GoError)
  deriving DecidableEq, Repr

/-- The call `handler.HandleResult(data, err)`. -/
def ResultHandler.HandleResult {V : Type} (h : ResultHandler V)
    (results : Option (GoMap String V)) (err : GoError) : ResultHandler V :=
  { handled := h.handled ++ [(results, err)] }

/-! ## The instance -/

/-- The struct `Instance`.  The task and link tables are non-nil maps (the code
writes to them without a nil test), `attrs`, `returnData` and `activityAttrs` may
be nil, and `resultHandler` may be nil.  The untyped `host` field, which no method
of the file reads, is left out. -/
structure Instance (V : Type) where
  subFlowId : Int
  master : IndependentInstance V
  isHandlingError : Bool
  status : FlowStatus
  flowDef : Definition V
  flowURI : String
  taskInsts : GoMap String TaskInst
  linkInsts : GoMap Int LinkInst
  forceCompletion : Bool
  returnData : Option (GoMap String V)
  returnError : GoError
  attrs : Option (GoMap String V)
  activityAttrs : Option (GoMap String (GoMap String V))
  resultHandler : Option (ResultHandler V)
  deriving DecidableEq, Repr

/-- The library function `strconv.Itoa`: the decimal numeral of an integer. -/
def Itoa (n : Int) : String := Int.repr n

/-- Modelled from the spec: the constructor `NewTaskInst(inst, task)`, which is
outside the source file: a record for the task, owned by the instance, in state
Waiting. -/
def NewTaskInst {V : Type} (inst : Instance V) (task : Task) : TaskInst :=
  { taskID := task.ID, flowInst := inst.subFlowId, status := TaskStatus.Waiting }

/-- Modelled from the spec: the constructor `NewLinkInst(inst, link)`, which is
outside the source file: a record for the link, owned by the instance, in state
Pending. -/
def NewLinkInst {V : Type} (inst : Instance V) (link : Link) : LinkInst :=
  { linkID := link.ID, flowInst := inst.subFlowId, status := LinkStatus.Pending }

/-- The outcome of a call whose recursion may exhaust the goroutine stack: Go
then aborts the program, and the call never returns to its caller. -/
inductive Outcome (α : Type) where
  | returned (result : α)
  | stackOverflow (frames : Nat)
  deriving DecidableEq, Repr

namespace Instance

variable {V : Type}

/-- The method `FlowURI`. -/
def FlowURI (inst : Instance V) : String := inst.flowURI

/-- The method `Name`. -/
def Name (inst : Instance V) : String := inst.flowDef.Name

/-- The method `ID`. -/
def ID (inst : Instance V) : String :=
  if inst.subFlowId > 0 then
    inst.master.id ++ "-" ++ Itoa inst.subFlowId
  else
    inst.master.id

/-- The method `SetResultHandler`. -/
def SetResultHandler (inst : Instance V) (handler : Option (ResultHandler V)) : Instance V :=
  { inst with resultHandler := handler }

/-- The method `FindOrCreateTaskData`: the pair `(taskInst, created)` and the
updated instance. -/
def FindOrCreateTaskData (inst : Instance V) (task : Task) : (TaskInst × Bool) × Instance V :=
  match GoMap.get inst.taskInsts task.ID with
  | some taskInst => ((taskInst, false), inst)
  | none =>
    let taskInst := NewTaskInst inst task
    let inst1 := { inst with taskInsts := GoMap.set inst.taskInsts task.ID taskInst }
    let inst2 := { inst1 with master := { inst1.master with
      ChangeTracker := inst1.master.ChangeTracker.trackTaskData inst1.subFlowId
        { ChgType := ChgType.CtAdd, ID := task.ID, TaskInst := some taskInst } } }
    ((taskInst, true), inst2)

/-- The method `FindOrCreateLinkData`: the pair `(linkInst, created)` and the
updated instance. -/
def FindOrCreateLinkData (inst : Instance V) (link : Link) : (LinkInst × Bool) × Instance V :=
  match GoMap.get inst.linkInsts link.ID with
  | some linkInst => ((linkInst, false), inst)
  | none =>
    let linkInst := NewLinkInst inst link
    let inst1 := { inst with linkInsts := GoMap.set inst.linkInsts link.ID linkInst }
    let inst2 := { inst1 with master := { inst1.master with
      ChangeTracker := inst1.master.ChangeTracker.trackLinkData inst1.subFlowId
        { ChgType := ChgType.CtAdd, ID := link.ID, LinkInst := some linkInst } } }
    ((linkInst, true), inst2)

/-- One pass of the loop body of `releaseTask`, for one outbound link. -/
def releaseLink (inst : Instance V) (link : Link) : Instance V :=
  { inst with
    linkInsts := GoMap.delete inst.linkInsts link.ID
    master := { inst.master with
      ChangeTracker := inst.master.ChangeTracker.trackLinkData inst.subFlowId
        { ChgType := ChgType.CtDel, ID := link.ID, LinkInst := none } } }

/-- The method `releaseTask`. -/
def releaseTask (inst : Instance V) (task : Task) : Instance V :=
  let inst1 := { inst with taskInsts := GoMap.delete inst.taskInsts task.ID }
  let inst2 := { inst1 with master := { inst1.master with
    ChangeTracker := inst1.master.ChangeTracker.trackTaskData inst1.subFlowId
      { ChgType := ChgType.CtDel, ID := task.ID, TaskInst := none } } }
  let links := task.FromLinks
  links.foldl releaseLink inst2

/-- The method `IOMetadata`. -/
def IOMetadata (inst : Instance V) : Option (Flow.IOMetadata V) := inst.flowDef.Metadata

/-- The method `Reply`: the result goes to the attached handler, if any. -/
def Reply (inst : Instance V) (replyData : Option (GoMap String V)) (err : GoError) :
    Instance V :=
  match inst.resultHandler with
  | some h => { inst with resultHandler := some (h.HandleResult replyData err) }
  | none => inst

/-- The method `Return`. -/
def Return (inst : Instance V) (returnData : Option (GoMap String V)) (err : GoError) :
    Instance V :=
  { inst with forceCompletion := true, returnData := returnData, returnError := err }

/-- The method `WorkingData`: the instance itself is the scope. -/
def WorkingData (inst : Instance V) : Instance V := inst

/-- The method `GetError`. -/
def GetError (inst : Instance V) : GoError := inst.returnError

/-- One pass of the loop body of `GetReturnData`, for one declared output name:
`inst.returnData[name] = piAttr` when the attribute table has the name. -/
def copyOutput (inst : Instance V) (name : String) : Instance V :=
  match GoMap.getNil inst.attrs name with
  | some piAttr => { inst with returnData := inst.returnData.map (fun m => GoMap.set m name piAttr) }
  | none => inst

/-- The method `GetReturnData`: the pair `(returnData, returnError)` and the
updated instance (a derived mapping is stored in `returnData`). -/
def GetReturnData (inst : Instance V) : (Option (GoMap String V) × GoError) × Instance V :=
  let inst1 :=
    if inst.returnData.isNone then
      match inst.flowDef.Metadata with
      | some md =>
        match md.Output with
        | some output =>
          output.foldl (fun s e => copyOutput s e.1) { inst with returnData := some [] }
        | none => inst
      | none => inst
    else inst
  ((inst1.returnData, inst1.returnError), inst1)

/-- The method `Status`. -/
def Status (inst : Instance V) : FlowStatus := inst.status

/-- The method `SetStatus`. -/
def SetStatus (inst : Instance V) (status : FlowStatus) : Instance V :=
  { inst with
    status := status
    master := { inst.master with
      ChangeTracker := inst.master.ChangeTracker.SetStatus inst.subFlowId status } }

/-- The method `FlowDefinition`. -/
def FlowDefinition (inst : Instance V) : Definition V := inst.flowDef

/-- The method `TaskInstances`: the values of the task table. -/
def TaskInstances (inst : Instance V) : List TaskInst := inst.taskInsts.map (fun e => e.2)

/-- The method `GetValue`: `some v` is `(v, true)`, `none` is not found; the
instance is returned as the method leaves it. -/
def GetValue (inst : Instance V) (name : String) : Option V × Instance V :=
  match GoMap.getNil inst.attrs name with
  | some attr => (some attr, inst)
  | none => (inst.flowDef.GetAttr name, inst)

/-- The method `SetValue`, run with room for `stack` nested frames.  After the
lazy allocation of the attribute table the body calls `inst.SetValue(name, value)`
itself; the tracking step and `return nil` come after that call returns. -/
def SetValue : Nat → Instance V → String → V → Outcome (GoError × Instance V)
  | 0, _, _, _ => Outcome.stackOverflow 0
  | stack + 1, inst, name, value =>
    let inst1 := if inst.attrs.isNone then { inst with attrs := some [] } else inst
    match SetValue stack inst1 name value with
    | Outcome.stackOverflow frames => Outcome.stackOverflow (frames + 1)
    | Outcome.returned r =>
      let inst2 := r.2
      let inst3 :=
        if inst2.master.trackingChanges then
          { inst2 with master := { inst2.master with
            ChangeTracker := inst2.master.ChangeTracker.AttrChange inst2.subFlowId
              ChgType.CtUpd (NewAttribute name DataType.TypeAny value) } }
        else inst2
      Outcome.returned (none, inst3)

/-- The method `UpdateAttrs`. -/
def UpdateAttrs (inst : Instance V) (attrs : Option (GoMap String V)) : Instance V :=
  match attrs with
  | none => inst
  | some m =>
    let inst1 := if inst.attrs.isNone then { inst with attrs := some [] } else inst
    m.foldl (fun s e => { s with attrs := s.attrs.map (fun t => GoMap.set t e.1 e.2) }) inst1

end Instance

/-! ## Decimal numerals -/

/-- The value of a decimal digit character. -/
def digitValue (c : Char) : Nat := c.toNat - 48

/-- The number a string of decimal digits denotes, read from the left. -/
def decimalValue (cs : List Char) : Nat :=
  cs.foldl (fun acc c => acc * 10 + digitValue c) 0

/-! ## Sequences of calls -/

/-- The calls a client may make on the data scope between two reads of the return
data: a bulk update of the attributes, or a read of the return data. -/
inductive ScopeCall (V : Type) where
  | updateAttrs (attrs : Option (GoMap String V))
  | getReturnData

/-- The state after one call on the data scope. -/
def Instance.call {V : Type} (inst : Instance V) : ScopeCall V → Instance V
  | ScopeCall.updateAttrs attrs => inst.UpdateAttrs attrs
  | ScopeCall.getReturnData => inst.GetReturnData.2

/-- The state after a sequence of calls on the data scope. -/
def Instance.calls {V : Type} (inst : Instance V) (cs : List (ScopeCall V)) : Instance V :=
  cs.foldl Instance.call inst

/-- A structural operation on a flow instance. -/
inductive StructOp where
  | findOrCreateTask (task : Task)
  | findOrCreateLink (link : Link)
  | release (task : Task)
  deriving DecidableEq, Repr

/-- The state after one structural operation. -/
def Instance.applyOp {V : Type} (inst : Instance V) : StructOp → Instance V
  | StructOp.findOrCreateTask task => (inst.FindOrCreateTaskData task).2
  | StructOp.findOrCreateLink link => (inst.FindOrCreateLinkData link).2
  | StructOp.release task => inst.releaseTask task

/-- The state after a sequence of structural operations. -/
def Instance.applyOps {V : Type} (inst : Instance V) (ops : List StructOp) : Instance V :=
  ops.foldl Instance.applyOp inst

/-- Whether a change entry is an Add entry for the task id. -/
def Change.isTaskAdd {V : Type} (id : String) : Change V → Bool
  | Change.task c => decide (c.ChgType = ChgType.CtAdd) && decide (c.ID = id)
  | _ => false

/-- Whether a change entry is an Add entry for the link id. -/
def Change.isLinkAdd {V : Type} (id : Int) : Change V → Bool
  | Change.link c => decide (c.ChgType = ChgType.CtAdd) && decide (c.ID = id)
  | _ => false

/-- Whether a structural operation, when it is a release, finds in the change log
of the instance's ordinal an Add entry for its task and an Add entry for each
outbound link of the task. -/
def Instance.loggedOp {V : Type} (inst : Instance V) : StructOp → Bool
  | StructOp.release task =>
    (inst.master.ChangeTracker.changesOf inst.subFlowId).any (Change.isTaskAdd task.ID)
      && task.FromLinks.all (fun l =>
        (inst.master.ChangeTracker.changesOf inst.subFlowId).any (Change.isLinkAdd l.ID))
  | _ => true

/-- Whether every release of a sequence is applied in a state whose change log
holds an Add entry for the task and for each of its outbound links already. -/
def Instance.releasesLogged {V : Type} : Instance V → List StructOp → Bool
  | _, [] => true
  | inst, op :: ops => inst.loggedOp op && Instance.releasesLogged (inst.applyOp op) ops

/-- The ordering property of a change log: every task or link entry that is not
an Add (a Delete or an Update) comes after an Add entry for the same id. -/
def AddsFirst {V : Type} (log : List (Change V)) : Prop :=
  ∀ (pre post : List (Change V)) (c : Change V), log = pre ++ c :: post →
    (∀ x : TaskInstChange, c = Change.task x → x.ChgType ≠ ChgType.CtAdd →
        ∃ t, Change.task { ChgType := ChgType.CtAdd, ID := x.ID, TaskInst := t } ∈ pre)
      ∧ (∀ x : LinkInstChange, c = Change.link x → x.ChgType ≠ ChgType.CtAdd →
        ∃ l, Change.link { ChgType := ChgType.CtAdd, ID := x.ID, LinkInst := l } ∈ pre)

/-! ## Sample states -/

/-- A flow definition declaring the outputs `a` and `b` and the default `x = 5`. -/
def sampleDef : Definition Int :=
  { name := "flow"
    metadata := some { Input := none, Output := some [("a", 0), ("b", 0)] }
    attrs := some [("x", 5)] }

/-- A sub-flow instance of root `R1` with ordinal 3, empty tables, tracking
enabled, and the attribute `a = 1`. -/
def sampleInst : Instance Int :=
  { subFlowId := 3
    master := { id := "R1", ChangeTracker := { entries := [] }, trackingChanges := true }
    isHandlingError := false
    status := 0
    flowDef := sampleDef
    flowURI := "res://flow:sample"
    taskInsts := []
    linkInsts := []
    forceCompletion := false
    returnData := none
    returnError := none
    attrs := some [("a", 1)]
    activityAttrs := none
    resultHandler := none }

/-- A task `T` with the outbound links 1 and 2. -/
def sampleTask : Task := { id := "T", fromLinks := [{ id := 1 }, { id := 2 }] }

/-- The sample instance after task `T` and its two outbound links got their
run-time records. -/
def sampleBusy : Instance Int :=
  ((((sampleInst.FindOrCreateTaskData sampleTask).2).FindOrCreateLinkData { id := 1 }).2.FindOrCreateLinkData
    { id := 2 }).2

/-- The sample instance after link 1 alone got its run-time record: task `T` has
no record there. -/
def sampleLinked : Instance Int := (sampleInst.FindOrCreateLinkData { id := 1 }).2

/-- The root flow instance of `R1`: the sample instance with ordinal 0. -/
def sampleRoot : Instance Int := { sampleInst with subFlowId := 0 }

/-- The sample instance over a definition without metadata. -/
def sampleBare : Instance Int := { sampleInst with flowDef := { sampleDef with metadata := none } }

/-- The sample instance with a result handler attached that has received
nothing yet. -/
def sampleHandled : Instance Int := sampleInst.SetResultHandler (some { handled := [] })

/-- A bulk mapping that overwrites `a` and adds `b`. -/
def sampleBulk : GoMap String Int := [("a", 2), ("b", 3)]

/-- A task `U` with the outbound link 2. -/
def sampleOther : Task := { id := "U", fromLinks := [{ id := 2 }] }

/-- The root flow instance of a root whose id is `R1-3`. -/
def sampleDashed : Instance Int :=
  { sampleInst with subFlowId := 0, master := { sampleInst.master with id := "R1-3" } }

/-- The sample instance with a record of task `T` that has reached state Done. -/
def sampleDone : Instance Int :=
  { sampleInst with
    taskInsts := [("T", { taskID := "T", flowInst := 3, status := TaskStatus.Done })] }

namespace GoMap

variable {κ α : Type} [DecidableEq κ]

theorem get_set_same (m : GoMap κ α) (x : κ) (a : α) : get (set m x a) x = some a := by
  induction m with
  | nil => simp [set, get]
  | cons e m ih =>
    obtain ⟨k, v⟩ := e
    by_cases h : k = x
    · simp [set, get, h]
    · simp [set, get, h, ih]

theorem get_set_ne (m : GoMap κ α) (x y : κ) (a : α) (hxy : x ≠ y) :
    get (set m x a) y = get m y := by
  induction m with
  | nil => simp [set, get, hxy]
  | cons e m ih =>
    obtain ⟨k, v⟩ := e
    by_cases h : k = x
    · subst h
      simp [set, get, hxy]
    · by_cases hy : k = y
      · subst hy
        simp [set, get, h]
      · simp [set, get, h, hy, ih]

theorem get_delete_same (m : GoMap κ α) (x : κ) : get (delete m x) x = none := by
  induction m with
  | nil => simp [delete, get]
  | cons e m ih =>
    obtain ⟨k, v⟩ := e
    by_cases h : k = x
    · simp [delete, h, ih]
    · simp [delete, get, h, ih]

theorem get_delete_ne (m : GoMap κ α) (x y : κ) (hxy : x ≠ y) :
    get (delete m x) y = get m y := by
  induction m with
  | nil => simp [delete, get]
  | cons e m ih =>
    obtain ⟨k, v⟩ := e
    by_cases h : k = x
    · subst h
      simp [delete, get, hxy, ih]
    · by_cases hy : k = y
      · subst hy
        simp [delete, get, h]
      · simp [delete, get, h, hy, ih]

theorem delete_of_get_none (m : GoMap κ α) (x : κ) (hx : get m x = none) : delete m x = m := by
  induction m with
  | nil => simp [delete]
  | cons e m ih =>
    obtain ⟨k, v⟩ := e
    by_cases h : k = x
    · simp [get, h] at hx
    · simp [get, h] at hx
      simp [delete, h, ih hx]

theorem get_delete_of_none (m : GoMap κ α) (x y : κ) (hy : get m y = none) :
    get (delete m x) y = none := by
  by_cases h : x = y
  · subst h
    exact get_delete_same m x
  · rw [get_delete_ne m x y h, hy]

end GoMap

namespace InstanceChangeTracker

variable {V : Type}

theorem changesOf_append_same (es : List (Int × Change V)) (k : Int) (c : Change V) :
    changesOf { entries := es ++ [(k, c)] } k = changesOf { entries := es } k ++ [c] := by
  simp [changesOf, List.filter_append]

theorem changesOf_append_list (es fs : List (Int × Change V)) (k : Int) :
    changesOf { entries := es ++ fs } k
      = changesOf { entries := es } k ++ changesOf { entries := fs } k := by
  simp [changesOf, List.filter_append]

end InstanceChangeTracker

namespace Instance

variable {V : Type}

/-! ## Find-or-create -/

theorem findOrCreateTaskData_present (inst : Instance V) (task : Task) (t : TaskInst)
    (h : GoMap.get inst.taskInsts task.ID = some t) :
    inst.FindOrCreateTaskData task = ((t, false), inst) := by
  simp [FindOrCreateTaskData, h]

theorem findOrCreateTaskData_absent (inst : Instance V) (task : Task)
    (h : GoMap.get inst.taskInsts task.ID = none) :
    inst.FindOrCreateTaskData task =
      ((NewTaskInst inst task, true),
        { inst with
          taskInsts := GoMap.set inst.taskInsts task.ID (NewTaskInst inst task)
          master := { inst.master with
            ChangeTracker := inst.master.ChangeTracker.trackTaskData inst.subFlowId
              { ChgType := ChgType.CtAdd, ID := task.ID,
                TaskInst := some (NewTaskInst inst task) } } }) := by
  simp [FindOrCreateTaskData, h]

theorem findOrCreateLinkData_present (inst : Instance V) (link : Link) (l : LinkInst)
    (h : GoMap.get inst.linkInsts link.ID = some l) :
    inst.FindOrCreateLinkData link = ((l, false), inst) := by
  simp [FindOrCreateLinkData, h]

theorem findOrCreateLinkData_absent (inst : Instance V) (link : Link)
    (h : GoMap.get inst.linkInsts link.ID = none) :
    inst.FindOrCreateLinkData link =
      ((NewLinkInst inst link, true),
        { inst with
          linkInsts := GoMap.set inst.linkInsts link.ID (NewLinkInst inst link)
          master := { inst.master with
            ChangeTracker := inst.master.ChangeTracker.trackLinkData inst.subFlowId
              { ChgType := ChgType.CtAdd, ID := link.ID,
                LinkInst := some (NewLinkInst inst link) } } }) := by
  simp [FindOrCreateLinkData, h]

/-- C1: two calls of `FindOrCreateTaskData` in a row with the same task return
the same task instance, which is the one the task table holds under the id: on
a hit the first call returns the stored record and leaves the instance as it is,
on a miss it returns a new record in state Waiting and registers that record
under the id, and the second call returns the record of the table and changes
nothing; the first reports `created = true` exactly when the id was absent, the
second reports `created = false`; together they append one Add entry for the id
(carrying that instance) to the change log of the instance's ordinal when the id
was absent, and nothing when it was present. -/
theorem findOrCreateTaskData_twice (inst : Instance V) (task : Task) :
    ((inst.FindOrCreateTaskData task).2.FindOrCreateTaskData task).1.1
        = (inst.FindOrCreateTaskData task).1.1
      ∧ ((inst.FindOrCreateTaskData task).1.2 = true ↔
          GoMap.get inst.taskInsts task.ID = none)
      ∧ ((inst.FindOrCreateTaskData task).2.FindOrCreateTaskData task).1.2 = false
      ∧ ((inst.FindOrCreateTaskData task).2.FindOrCreateTaskData task).2.subFlowId
          = inst.subFlowId
      ∧ (GoMap.get inst.taskInsts task.ID = none →
          ((inst.FindOrCreateTaskData task).2.FindOrCreateTaskData task).2.master.ChangeTracker.changesOf
              inst.subFlowId
            = inst.master.ChangeTracker.changesOf inst.subFlowId ++
                [Change.task { ChgType := ChgType.CtAdd, ID := task.ID,
                               TaskInst := some (inst.FindOrCreateTaskData task).1.1 }])
      ∧ (GoMap.get inst.taskInsts task.ID ≠ none →
          ((inst.FindOrCreateTaskData task).2.FindOrCreateTaskData task).2.master.ChangeTracker
            = inst.master.ChangeTracker)
      ∧ (∀ t : TaskInst, GoMap.get inst.taskInsts task.ID = some t →
          (inst.FindOrCreateTaskData task).1 = (t, false)
            ∧ (inst.FindOrCreateTaskData task).2 = inst)
      ∧ (GoMap.get inst.taskInsts task.ID = none →
          (inst.FindOrCreateTaskData task).1.1
            = { taskID := task.ID, flowInst := inst.subFlowId, status := TaskStatus.Waiting })
      ∧ GoMap.get (inst.FindOrCreateTaskData task).2.taskInsts task.ID
          = some (inst.FindOrCreateTaskData task).1.1
      ∧ ((inst.FindOrCreateTaskData task).2.FindOrCreateTaskData task).2
          = (inst.FindOrCreateTaskData task).2
      ∧ GoMap.get ((inst.FindOrCreateTaskData task).2.FindOrCreateTaskData task).2.taskInsts
            task.ID
          = some ((inst.FindOrCreateTaskData task).2.FindOrCreateTaskData task).1.1 := by
  cases h : GoMap.get inst.taskInsts task.ID with
  | some t =>
    rw [findOrCreateTaskData_present inst task t h]
    simp [findOrCreateTaskData_present inst task t h, h]
  | none =>
    rw [findOrCreateTaskData_absent inst task h]
    have h2 : GoMap.get (GoMap.set inst.taskInsts task.ID (NewTaskInst inst task)) task.ID
        = some (NewTaskInst inst task) := GoMap.get_set_same _ _ _
    simp [FindOrCreateTaskData, h2, InstanceChangeTracker.trackTaskData,
      InstanceChangeTracker.changesOf_append_same]
    rfl

/-- The first call creates on the sample instance, where `T` is absent; on
`sampleDone`, where the table holds a record of `T` in state Done, both calls
return that record. -/
theorem findOrCreateTaskData_twice_witness :
    GoMap.get sampleInst.taskInsts sampleTask.ID = none
      ∧ ((sampleInst.FindOrCreateTaskData sampleTask).2.FindOrCreateTaskData
            sampleTask).2.master.ChangeTracker.changesOf sampleInst.subFlowId
          = sampleInst.master.ChangeTracker.changesOf sampleInst.subFlowId ++
              [Change.task { ChgType := ChgType.CtAdd, ID := sampleTask.ID,
                             TaskInst := some (sampleInst.FindOrCreateTaskData sampleTask).1.1 }]
      ∧ GoMap.get sampleBusy.taskInsts sampleTask.ID ≠ none
      ∧ ((sampleBusy.FindOrCreateTaskData sampleTask).2.FindOrCreateTaskData
            sampleTask).2.master.ChangeTracker = sampleBusy.master.ChangeTracker
      ∧ (sampleInst.FindOrCreateTaskData sampleTask).1.1
          = { taskID := "T", flowInst := 3, status := TaskStatus.Waiting }
      ∧ GoMap.get sampleDone.taskInsts sampleTask.ID
          = some { taskID := "T", flowInst := 3, status := TaskStatus.Done }
      ∧ (sampleDone.FindOrCreateTaskData sampleTask).1
          = ({ taskID := "T", flowInst := 3, status := TaskStatus.Done }, false)
      ∧ (sampleDone.FindOrCreateTaskData sampleTask).2 = sampleDone
      ∧ ((sampleDone.FindOrCreateTaskData sampleTask).2.FindOrCreateTaskData sampleTask).1.1
          = { taskID := "T", flowInst := 3, status := TaskStatus.Done } :=
  ⟨by decide,
   (findOrCreateTaskData_twice sampleInst sampleTask).2.2.2.2.1 (by decide),
   by decide,
   (findOrCreateTaskData_twice sampleBusy sampleTask).2.2.2.2.2.1 (by decide),
   (findOrCreateTaskData_twice sampleInst sampleTask).2.2.2.2.2.2.2.1 (by decide),
   by decide,
   ((findOrCreateTaskData_twice sampleDone sampleTask).2.2.2.2.2.2.1
      { taskID := "T", flowInst := 3, status := TaskStatus.Done } (by decide)).1,
   ((findOrCreateTaskData_twice sampleDone sampleTask).2.2.2.2.2.2.1
      { taskID := "T", flowInst := 3, status := TaskStatus.Done } (by decide)).2,
   by decide⟩

/-- C10: `FindOrCreateLinkData` returns the existing link instance with
`created = false` and leaves the instance (change log included) as it is when the id
is in the link table; otherwise it creates a link instance (in state Pending),
registers it under the id, appends exactly one Add entry for the id to the change
log of the instance's ordinal and returns `created = true`, and a second call
with the same link returns that instance with `created = false`. -/
theorem findOrCreateLinkData_spec (inst : Instance V) (link : Link) :
    (∀ l : LinkInst, GoMap.get inst.linkInsts link.ID = some l →
        (inst.FindOrCreateLinkData link).1 = (l, false)
          ∧ (inst.FindOrCreateLinkData link).2 = inst)
      ∧ (GoMap.get inst.linkInsts link.ID = none →
          (inst.FindOrCreateLinkData link).1.2 = true
            ∧ (inst.FindOrCreateLinkData link).1.1
                = { linkID := link.ID, flowInst := inst.subFlowId, status := LinkStatus.Pending }
            ∧ GoMap.get (inst.FindOrCreateLinkData link).2.linkInsts link.ID
                = some (inst.FindOrCreateLinkData link).1.1
            ∧ (inst.FindOrCreateLinkData link).2.subFlowId = inst.subFlowId
            ∧ (inst.FindOrCreateLinkData link).2.master.ChangeTracker.changesOf inst.subFlowId
                = inst.master.ChangeTracker.changesOf inst.subFlowId ++
                    [Change.link { ChgType := ChgType.CtAdd, ID := link.ID,
                                   LinkInst := some (inst.FindOrCreateLinkData link).1.1 }]
            ∧ ((inst.FindOrCreateLinkData link).2.FindOrCreateLinkData link).1
                = ((inst.FindOrCreateLinkData link).1.1, false)
            ∧ ((inst.FindOrCreateLinkData link).2.FindOrCreateLinkData link).2
                = (inst.FindOrCreateLinkData link).2) := by
  constructor
  · intro l h
    simp [findOrCreateLinkData_present inst link l h]
  · intro h
    rw [findOrCreateLinkData_absent inst link h]
    have h2 : GoMap.get (GoMap.set inst.linkInsts link.ID (NewLinkInst inst link)) link.ID
        = some (NewLinkInst inst link) := GoMap.get_set_same _ _ _
    simp [FindOrCreateLinkData, h2, InstanceChangeTracker.trackLinkData,
      InstanceChangeTracker.changesOf_append_same]
    rfl

/-- Link 1 is absent from the sample instance and present once created. -/
theorem findOrCreateLinkData_spec_witness :
    (GoMap.get sampleBusy.linkInsts (Link.ID { id := 1 })
          = some { linkID := 1, flowInst := 3, status := LinkStatus.Pending }
        ∧ (sampleBusy.FindOrCreateLinkData { id := 1 }).1
            = ({ linkID := 1, flowInst := 3, status := LinkStatus.Pending }, false)
        ∧ (sampleBusy.FindOrCreateLinkData { id := 1 }).2 = sampleBusy)
      ∧ GoMap.get sampleInst.linkInsts (Link.ID { id := 1 }) = none
      ∧ (sampleInst.FindOrCreateLinkData { id := 1 }).1.2 = true
      ∧ ((sampleInst.FindOrCreateLinkData { id := 1 }).2.FindOrCreateLinkData { id := 1 }).1
          = ((sampleInst.FindOrCreateLinkData { id := 1 }).1.1, false) :=
  ⟨⟨by decide,
    (findOrCreateLinkData_spec sampleBusy { id := 1 }).1
      { linkID := 1, flowInst := 3, status := LinkStatus.Pending } (by decide)⟩,
   by decide,
   ((findOrCreateLinkData_spec sampleInst { id := 1 }).2 (by decide)).1,
   ((findOrCreateLinkData_spec sampleInst { id := 1 }).2 (by decide)).2.2.2.2.2.1⟩

/-! ## Release -/

/-- The link table after the deletions of the release loop. -/
theorem get_foldl_delete_of_mem (links : List Link) (m : GoMap Int LinkInst) (l : Link)
    (hl : l ∈ links) :
    GoMap.get (links.foldl (fun t k => GoMap.delete t k.ID) m) l.ID = none := by
  induction links generalizing m with
  | nil => simp at hl
  | cons k ks ih =>
    simp only [List.foldl_cons]
    rcases List.mem_cons.mp hl with h | h
    · subst h
      have keep : ∀ (js : List Link) (t : GoMap Int LinkInst), GoMap.get t l.ID = none →
          GoMap.get (js.foldl (fun t k => GoMap.delete t k.ID) t) l.ID = none := by
        intro js
        induction js with
        | nil => intro t ht; simpa using ht
        | cons j js ihj =>
          intro t ht
          simp only [List.foldl_cons]
          exact ihj _ (GoMap.get_delete_of_none t j.ID l.ID ht)
      exact keep ks _ (GoMap.get_delete_same m l.ID)
    · exact ih _ h

/-- A link id that is not outbound keeps its entry through the release loop. -/
theorem get_foldl_delete_of_not_mem (links : List Link) (m : GoMap Int LinkInst) (y : Int)
    (hy : ∀ l ∈ links, l.ID ≠ y) :
    GoMap.get (links.foldl (fun t k => GoMap.delete t k.ID) m) y = GoMap.get m y := by
  induction links generalizing m with
  | nil => simp
  | cons k ks ih =>
    simp only [List.foldl_cons]
    rw [ih _ (fun l hl => hy l (List.mem_cons_of_mem _ hl))]
    exact GoMap.get_delete_ne m k.ID y (hy k (List.mem_cons_self _ _))

/-- The release loop in closed form: it touches the link table and the log only. -/
theorem foldl_releaseLink (links : List Link) (inst : Instance V) :
    links.foldl releaseLink inst =
      { inst with
        linkInsts := links.foldl (fun t k => GoMap.delete t k.ID) inst.linkInsts
        master := { inst.master with
          ChangeTracker := { entries := (inst.master.ChangeTracker.entries ++
            links.map (fun k => (inst.subFlowId,
              Change.link { ChgType := ChgType.CtDel, ID := k.ID, LinkInst := none }))) } } } := by
  induction links generalizing inst with
  | nil => simp
  | cons k ks ih =>
    simp only [List.foldl_cons, List.map_cons]
    rw [ih]
    simp [releaseLink, InstanceChangeTracker.trackLinkData]

/-- The method `releaseTask` in closed form. -/
theorem releaseTask_eq (inst : Instance V) (task : Task) :
    inst.releaseTask task =
      { inst with
        taskInsts := GoMap.delete inst.taskInsts task.ID
        linkInsts := task.FromLinks.foldl (fun t k => GoMap.delete t k.ID) inst.linkInsts
        master := { inst.master with
          ChangeTracker := { entries := (inst.master.ChangeTracker.entries ++
            (inst.subFlowId,
              Change.task { ChgType := ChgType.CtDel, ID := task.ID, TaskInst := none }) ::
            task.FromLinks.map (fun k => (inst.subFlowId,
              Change.link { ChgType := ChgType.CtDel, ID := k.ID, LinkInst := none }))) } } } := by
  simp [releaseTask, foldl_releaseLink, InstanceChangeTracker.trackTaskData]

/-- The entries the release of a task appends, read back for its ordinal. -/
theorem changesOf_release_entries (k : Int) (task : Task) :
    InstanceChangeTracker.changesOf (V := V)
        { entries := (k, Change.task { ChgType := ChgType.CtDel, ID := task.ID, TaskInst := none }) ::
            task.FromLinks.map (fun l => (k,
              Change.link { ChgType := ChgType.CtDel, ID := l.ID, LinkInst := none })) } k
      = Change.task { ChgType := ChgType.CtDel, ID := task.ID, TaskInst := none } ::
          task.FromLinks.map (fun l =>
            Change.link { ChgType := ChgType.CtDel, ID := l.ID, LinkInst := none }) := by
  simp [InstanceChangeTracker.changesOf, List.filter_map, Function.comp_def]

/-- The change log of the instance's ordinal after `releaseTask`. -/
theorem releaseTask_changesOf (inst : Instance V) (task : Task) :
    (inst.releaseTask task).master.ChangeTracker.changesOf inst.subFlowId
      = inst.master.ChangeTracker.changesOf inst.subFlowId ++
          Change.task { ChgType := ChgType.CtDel, ID := task.ID, TaskInst := none } ::
            task.FromLinks.map (fun l =>
              Change.link { ChgType := ChgType.CtDel, ID := l.ID, LinkInst := none }) := by
  rw [releaseTask_eq]
  simp only
  rw [InstanceChangeTracker.changesOf_append_list, changesOf_release_entries]

/-- C2: when task `T` has an instance and its outbound links `L1..Ln` have link
instances, `releaseTask(T)` yields a state whose task table no longer holds `T`,
whose link table holds none of `L1..Ln`, and whose change log for the instance's
ordinal is the previous log followed by exactly `Delete T, Delete L1, ..., Delete
Ln` in that order. -/
theorem releaseTask_cascade (inst : Instance V) (task : Task)
    (_hT : GoMap.get inst.taskInsts task.ID ≠ none)
    (_hL : ∀ l ∈ task.FromLinks, GoMap.get inst.linkInsts l.ID ≠ none) :
    GoMap.get (inst.releaseTask task).taskInsts task.ID = none
      ∧ (∀ l ∈ task.FromLinks, GoMap.get (inst.releaseTask task).linkInsts l.ID = none)
      ∧ (inst.releaseTask task).subFlowId = inst.subFlowId
      ∧ (inst.releaseTask task).master.ChangeTracker.changesOf inst.subFlowId
          = inst.master.ChangeTracker.changesOf inst.subFlowId ++
              Change.task { ChgType := ChgType.CtDel, ID := task.ID, TaskInst := none } ::
                task.FromLinks.map (fun l =>
                  Change.link { ChgType := ChgType.CtDel, ID := l.ID, LinkInst := none }) := by
  refine ⟨?_, ?_, ?_, releaseTask_changesOf inst task⟩
  · rw [releaseTask_eq]
    exact GoMap.get_delete_same _ _
  · intro l hl
    rw [releaseTask_eq]
    exact get_foldl_delete_of_mem _ _ l hl
  · rw [releaseTask_eq]

/-- Task `T` and its links 1 and 2 have records in the busy sample instance. -/
theorem releaseTask_cascade_witness :
    GoMap.get sampleBusy.taskInsts sampleTask.ID ≠ none
      ∧ (∀ l ∈ sampleTask.FromLinks, GoMap.get sampleBusy.linkInsts l.ID ≠ none)
      ∧ GoMap.get (sampleBusy.releaseTask sampleTask).taskInsts sampleTask.ID = none
      ∧ (sampleBusy.releaseTask sampleTask).master.ChangeTracker.changesOf sampleBusy.subFlowId
          = sampleBusy.master.ChangeTracker.changesOf sampleBusy.subFlowId ++
              Change.task { ChgType := ChgType.CtDel, ID := sampleTask.ID, TaskInst := none } ::
                sampleTask.FromLinks.map (fun l =>
                  Change.link { ChgType := ChgType.CtDel, ID := l.ID, LinkInst := none }) :=
  ⟨by decide, by decide,
   (releaseTask_cascade sampleBusy sampleTask (by decide) (by decide)).1,
   (releaseTask_cascade sampleBusy sampleTask (by decide) (by decide)).2.2.2⟩

/-- C3, as stated, fails: task `T` has no record in `sampleLinked`, yet its release
removes the record of link 1 from the link table and appends three Delete entries
to the change log of ordinal 3. -/
theorem releaseTask_absent_not_noop :
    GoMap.get sampleLinked.taskInsts sampleTask.ID = none
      ∧ (sampleLinked.releaseTask sampleTask).linkInsts ≠ sampleLinked.linkInsts
      ∧ (sampleLinked.releaseTask sampleTask).master.ChangeTracker.changesOf 3
          = sampleLinked.master.ChangeTracker.changesOf 3 ++
              [Change.task { ChgType := ChgType.CtDel, ID := "T", TaskInst := none },
               Change.link { ChgType := ChgType.CtDel, ID := 1, LinkInst := none },
               Change.link { ChgType := ChgType.CtDel, ID := 2, LinkInst := none }]
      ∧ ¬ (sampleLinked.releaseTask sampleTask = sampleLinked) := by
  decide

/-- C3, amended: when the task id is absent from the task table, `releaseTask`
leaves the task table, the attributes, the status and every other field but the
link table and the change tracker unchanged; it still appends `Delete T` followed
by one Delete per outbound link to the change log of the instance's ordinal, and
the link table loses the outbound links and keeps every other entry. -/
theorem releaseTask_absent (inst : Instance V) (task : Task)
    (hT : GoMap.get inst.taskInsts task.ID = none) :
    inst.releaseTask task =
        { inst with
          linkInsts := (inst.releaseTask task).linkInsts
          master := { inst.master with ChangeTracker := (inst.releaseTask task).master.ChangeTracker } }
      ∧ (inst.releaseTask task).taskInsts = inst.taskInsts
      ∧ (inst.releaseTask task).attrs = inst.attrs
      ∧ (inst.releaseTask task).status = inst.status
      ∧ (inst.releaseTask task).master.ChangeTracker.changesOf inst.subFlowId
          = inst.master.ChangeTracker.changesOf inst.subFlowId ++
              Change.task { ChgType := ChgType.CtDel, ID := task.ID, TaskInst := none } ::
                task.FromLinks.map (fun l =>
                  Change.link { ChgType := ChgType.CtDel, ID := l.ID, LinkInst := none })
      ∧ (∀ l ∈ task.FromLinks, GoMap.get (inst.releaseTask task).linkInsts l.ID = none)
      ∧ (∀ y : Int, (∀ l ∈ task.FromLinks, l.ID ≠ y) →
          GoMap.get (inst.releaseTask task).linkInsts y = GoMap.get inst.linkInsts y) := by
  refine ⟨?_, ?_, ?_, ?_, releaseTask_changesOf inst task, ?_, ?_⟩
  · rw [releaseTask_eq]
    simp [GoMap.delete_of_get_none _ _ hT]
  · rw [releaseTask_eq]
    exact GoMap.delete_of_get_none _ _ hT
  · rw [releaseTask_eq]
  · rw [releaseTask_eq]
  · intro l hl
    rw [releaseTask_eq]
    exact get_foldl_delete_of_mem _ _ l hl
  · intro y hy
    rw [releaseTask_eq]
    exact get_foldl_delete_of_not_mem _ _ y hy

/-- Task `T` has no record in `sampleLinked`. -/
theorem releaseTask_absent_witness :
    GoMap.get sampleLinked.taskInsts sampleTask.ID = none
      ∧ (sampleLinked.releaseTask sampleTask).taskInsts = sampleLinked.taskInsts
      ∧ (∀ l ∈ sampleTask.FromLinks,
          GoMap.get (sampleLinked.releaseTask sampleTask).linkInsts l.ID = none) :=
  ⟨by decide,
   (releaseTask_absent sampleLinked sampleTask (by decide)).2.1,
   (releaseTask_absent sampleLinked sampleTask (by decide)).2.2.2.2.2.1⟩

/-! ## Attributes -/

/-- Whatever room the stack has, `SetValue` uses all of it in nested calls of
itself and overflows. -/
theorem setValue_overflows (stack : Nat) (inst : Instance V) (name : String) (value : V) :
    inst.SetValue stack name value = Outcome.stackOverflow stack := by
  induction stack generalizing inst with
  | zero => rfl
  | succ n ih => simp [SetValue, ih]

/-- C4 fails on the code: for no stack size does `SetValue` return, neither an
error value nor a state in which the attribute could be read back; the write to
the attribute table and the Update entry are never reached. -/
theorem setValue_never_returns (stack : Nat) (inst : Instance V) (name : String) (value : V)
    (r : GoError × Instance V) :
    inst.SetValue stack name value ≠ Outcome.returned r := by
  rw [setValue_overflows]
  exact fun h => Outcome.noConfusion h

/-- C5 fails on the code: the depth of the recursion of `SetValue` exceeds every
bound: with room for `bound + 1` frames the call `SetValue("x", 7)` on the sample
instance, like any other, nests `bound + 1` calls of itself and overflows. -/
theorem setValue_recursion_unbounded (bound : Nat) (inst : Instance V) (name : String)
    (value : V) :
    ∃ frames : Nat, bound < frames
      ∧ inst.SetValue (bound + 1) name value = Outcome.stackOverflow frames
      ∧ sampleInst.SetValue (bound + 1) "x" 7 = Outcome.stackOverflow frames :=
  ⟨bound + 1, Nat.lt_succ_self bound, setValue_overflows _ _ _ _, setValue_overflows _ _ _ _⟩

/-- C6: `GetValue(name)` returns `(v, true)` when the instance attribute table
holds `v` under the name, and otherwise the result of the definition's
`GetAttr(name)`; it reports not-found exactly when neither the instance table nor
the definition's defaults hold the name; and it leaves the instance, the
definition with it, as it was. -/
theorem getValue_spec (inst : Instance V) (name : String) :
    (∀ v : V, GoMap.getNil inst.attrs name = some v → (inst.GetValue name).1 = some v)
      ∧ (GoMap.getNil inst.attrs name = none →
          (inst.GetValue name).1 = inst.flowDef.GetAttr name)
      ∧ ((inst.GetValue name).1 = none ↔
          GoMap.getNil inst.attrs name = none ∧ GoMap.getNil inst.flowDef.attrs name = none)
      ∧ (inst.GetValue name).2 = inst := by
  cases h : GoMap.getNil inst.attrs name with
  | none => simp [GetValue, h, Definition.GetAttr]
  | some a => simp [GetValue, h]

/-- On the sample instance `a` is an instance value and `x` a definition default. -/
theorem getValue_spec_witness :
    GoMap.getNil sampleInst.attrs "a" = some 1
      ∧ (sampleInst.GetValue "a").1 = some 1
      ∧ GoMap.getNil sampleInst.attrs "x" = none
      ∧ (sampleInst.GetValue "x").1 = sampleInst.flowDef.GetAttr "x" :=
  ⟨by decide, (getValue_spec sampleInst "a").1 1 (by decide),
   by decide, (getValue_spec sampleInst "x").2.1 (by decide)⟩

/-! ## Identity -/

/-- C9: the id of a flow instance with root id `r` and ordinal `k` is `r`, a
dash and the decimal numeral of `k` when `k > 0`, and `r` alone when `k = 0`. -/
theorem ID_spec (inst : Instance V) :
    (0 < inst.subFlowId → inst.ID = inst.master.id ++ "-" ++ Itoa inst.subFlowId)
      ∧ (inst.subFlowId = 0 → inst.ID = inst.master.id) := by
  constructor
  · intro h
    simp [ID, h]
  · intro h
    simp [ID, h]

/-- Root `R1` with ordinal 3 has id `R1-3`, and with ordinal 0 id `R1`. -/
theorem ID_spec_witness :
    (0 < sampleInst.subFlowId ∧ sampleInst.ID = "R1" ++ "-" ++ Itoa 3 ∧ sampleInst.ID = "R1-3")
      ∧ (sampleRoot.subFlowId = 0 ∧ sampleRoot.ID = "R1") :=
  ⟨⟨by decide, (ID_spec sampleInst).1 (by decide), by decide⟩,
   ⟨by decide, (ID_spec sampleRoot).2 (by decide)⟩⟩

/-! ## Return data -/

/-- A key is in a map exactly when one of its entries carries it. -/
theorem get_ne_none_iff {α : Type} (m : GoMap String α) (n : String) :
    GoMap.get m n ≠ none ↔ ∃ e ∈ m, e.1 = n := by
  induction m with
  | nil => simp [GoMap.get]
  | cons e m ih =>
    obtain ⟨k, v⟩ := e
    by_cases h : k = n
    · simp [GoMap.get, h]
    · simp [GoMap.get, h, ih]

/-- The derivation loop of `GetReturnData`: started on a non-nil result map `m0`,
it changes the `returnData` field only, and the map it leaves holds the attribute
value of every declared output that has one and agrees with `m0` elsewhere. -/
theorem foldl_copyOutput (output : GoMap String V) (inst : Instance V) (m0 : GoMap String V)
    (h0 : inst.returnData = some m0) :
    ∃ m : GoMap String V,
      output.foldl (fun s e => copyOutput s e.1) inst = { inst with returnData := some m }
        ∧ (∀ (n : String) (v : V), (∃ e ∈ output, e.1 = n) → GoMap.getNil inst.attrs n = some v →
            GoMap.get m n = some v)
        ∧ (∀ n : String, (¬ (∃ e ∈ output, e.1 = n) ∨ GoMap.getNil inst.attrs n = none) →
            GoMap.get m n = GoMap.get m0 n) := by
  induction output generalizing inst m0 with
  | nil =>
    refine ⟨m0, ?_, ?_, ?_⟩
    · simp [← h0]
    · intro n v hn
      simp at hn
    · intro n _
      rfl
  | cons e es ih =>
    simp only [List.foldl_cons]
    cases ha : GoMap.getNil inst.attrs e.1 with
    | none =>
      have hstep : copyOutput inst e.1 = inst := by simp [copyOutput, ha]
      rw [hstep]
      obtain ⟨m, hm, hin, hout⟩ := ih inst m0 h0
      refine ⟨m, hm, ?_, ?_⟩
      · intro n v hn hv
        obtain ⟨e1, he1, rfl⟩ := hn
        rcases List.mem_cons.mp he1 with h | h
        · subst h
          rw [ha] at hv
          cases hv
        · exact hin _ v ⟨e1, h, rfl⟩ hv
      · intro n hn
        apply hout
        rcases hn with hn | hn
        · left
          intro hex
          obtain ⟨e1, he1, rfl⟩ := hex
          exact hn ⟨e1, List.mem_cons_of_mem _ he1, rfl⟩
        · right
          exact hn
    | some a =>
      have hstep : copyOutput inst e.1 = { inst with returnData := some (GoMap.set m0 e.1 a) } := by
        simp [copyOutput, ha, h0]
      rw [hstep]
      obtain ⟨m, hm, hin, hout⟩ :=
        ih { inst with returnData := some (GoMap.set m0 e.1 a) } (GoMap.set m0 e.1 a) rfl
      refine ⟨m, ?_, ?_, ?_⟩
      · rw [hm]
      · intro n v hn hv
        by_cases hes : ∃ e1 ∈ es, e1.1 = n
        · exact hin n v hes hv
        · obtain ⟨e1, he1, rfl⟩ := hn
          rcases List.mem_cons.mp he1 with h | h
          · subst h
            rw [hout _ (Or.inl hes), GoMap.get_set_same]
            rw [ha] at hv
            exact hv
          · exact absurd ⟨e1, h, rfl⟩ hes
      · intro n hn
        have hne : e.1 ≠ n := by
          intro heq
          rcases hn with hn | hn
          · exact hn ⟨e, List.mem_cons_self _ _, heq⟩
          · rw [← heq, ha] at hn
            cases hn
        have hes : ¬ (∃ e1 ∈ es, e1.1 = n) ∨ GoMap.getNil inst.attrs n = none := by
          rcases hn with hn | hn
          · left
            intro hex
            obtain ⟨e1, he1, rfl⟩ := hex
            exact hn ⟨e1, List.mem_cons_of_mem _ he1, rfl⟩
          · right
            exact hn
        rw [hout n hes, GoMap.get_set_ne _ _ _ _ hne]

/-- The method `GetReturnData` on an instance whose `returnData` is nil and whose
definition declares the output map `output`. -/
theorem getReturnData_derive (inst : Instance V) (md : Flow.IOMetadata V)
    (output : GoMap String V) (hData : inst.returnData = none)
    (hmd : inst.flowDef.Metadata = some md) (hO : md.Output = some output) :
    ∃ m : GoMap String V,
      inst.GetReturnData = ((some m, inst.returnError), { inst with returnData := some m })
        ∧ ∀ (n : String) (v : V), GoMap.get m n = some v ↔
            (GoMap.get output n ≠ none ∧ GoMap.getNil inst.attrs n = some v) := by
  obtain ⟨m, hm, hin, hout⟩ :=
    foldl_copyOutput output { inst with returnData := some [] } [] rfl
  refine ⟨m, ?_, ?_⟩
  · simp [GetReturnData, hData, hmd, hO, hm]
  · intro n v
    rw [get_ne_none_iff]
    constructor
    · intro hget
      by_cases hex : ∃ e ∈ output, e.1 = n
      · refine ⟨hex, ?_⟩
        cases hv : GoMap.getNil inst.attrs n with
        | none =>
          rw [hout n (Or.inr hv)] at hget
          simp [GoMap.get] at hget
        | some w =>
          rw [hin n w hex hv] at hget
          exact hget
      · rw [hout n (Or.inl hex)] at hget
        simp [GoMap.get] at hget
    · intro h
      exact hin n v h.1 h.2

/-- The error `GetReturnData` returns is the stored one. -/
theorem getReturnData_error (inst : Instance V) :
    inst.GetReturnData.1.2 = inst.returnError := by
  cases hData : inst.returnData with
  | some d => simp [GetReturnData, hData]
  | none =>
    cases hmd : inst.flowDef.Metadata with
    | none => simp [GetReturnData, hData, hmd]
    | some md =>
      cases hO : md.Output with
      | none => simp [GetReturnData, hData, hmd, hO]
      | some output =>
        obtain ⟨m, hm, _⟩ := getReturnData_derive inst md output hData hmd hO
        rw [hm]

/-- C7, as stated, fails for a nil mapping: after `Return(nil, err)` on the sample
instance, whose definition declares the outputs `a` and `b`, `GetReturnData`
returns the derived mapping `a = 1`, not nil. -/
theorem getReturnData_after_return_nil :
    ((sampleInst.Return none (some "boom")).GetReturnData).1
        = (some [("a", 1)], some "boom")
      ∧ ((sampleInst.Return none (some "boom")).GetReturnData).1 ≠ (none, some "boom") := by
  decide

/-- C7, amended: after `Return(d, e)` with a non-nil mapping `d` (an empty one
included) `GetReturnData` returns exactly `(d, e)`, whatever outputs the
definition declares and whatever the attribute table holds; after `Return(nil,
e)` it returns the error `e`, with nil data when the definition has no output
metadata, and with the mapping derived from the declared outputs and the
attribute table when it has. -/
theorem getReturnData_after_return (inst : Instance V) (d : GoMap String V) (e : GoError) :
    ((inst.Return (some d) e).GetReturnData).1 = (some d, e)
      ∧ ((inst.Return none e).GetReturnData).1.2 = e
      ∧ ((inst.flowDef.Metadata = none ∨
            ∃ md, inst.flowDef.Metadata = some md ∧ md.Output = none) →
          ((inst.Return none e).GetReturnData).1 = (none, e))
      ∧ (∀ (md : Flow.IOMetadata V) (output : GoMap String V),
          inst.flowDef.Metadata = some md → md.Output = some output →
          ∃ m : GoMap String V, ((inst.Return none e).GetReturnData).1 = (some m, e)
            ∧ ∀ (n : String) (v : V), GoMap.get m n = some v ↔
                (GoMap.get output n ≠ none ∧ GoMap.getNil inst.attrs n = some v)) := by
  refine ⟨?_, ?_, ?_, ?_⟩
  · simp [GetReturnData, Return]
  · rw [getReturnData_error]
    rfl
  · intro h
    rcases h with h | ⟨md, hmd, hO⟩
    · simp [GetReturnData, Return, h]
    · simp [GetReturnData, Return, hmd, hO]
  · intro md output hmd hO
    obtain ⟨m, hm, hspec⟩ := getReturnData_derive (inst.Return none e) md output rfl hmd hO
    exact ⟨m, by rw [hm]; rfl, hspec⟩

/-- The definition of `sampleBare` has no metadata, that of `sampleInst` declares
the outputs `a` and `b`. -/
theorem getReturnData_after_return_witness :
    ((sampleInst.Return (some []) (some "boom")).GetReturnData).1 = (some [], some "boom")
      ∧ (sampleBare.flowDef.Metadata = none ∨
          ∃ md, sampleBare.flowDef.Metadata = some md ∧ md.Output = none)
      ∧ ((sampleBare.Return none (some "boom")).GetReturnData).1 = (none, some "boom")
      ∧ sampleInst.flowDef.Metadata = some { Input := none, Output := some [("a", 0), ("b", 0)] }
      ∧ ∃ m : GoMap String Int,
          ((sampleInst.Return none none).GetReturnData).1 = (some m, none)
            ∧ ∀ (n : String) (v : Int), GoMap.get m n = some v ↔
                (GoMap.get [("a", (0 : Int)), ("b", 0)] n ≠ none
                  ∧ GoMap.getNil sampleInst.attrs n = some v) :=
  ⟨(getReturnData_after_return sampleInst [] (some "boom")).1,
   Or.inl rfl,
   (getReturnData_after_return sampleBare [] (some "boom")).2.2.1 (Or.inl rfl),
   rfl,
   (getReturnData_after_return sampleInst [] none).2.2.2 _ _ rfl rfl⟩

/-- C8: on an instance on which `Return` was never called (no return data, no
return error) and whose definition declares the output names `O`, the first call
of `GetReturnData` returns `(m, nil)` where `m` is the restriction of the
attribute table to `O`: `m` maps `n` to `v` exactly when `n` is in `O` and the
attribute table maps `n` to `v`; declared outputs without an attribute are left
out, and no error is raised for them. -/
theorem getReturnData_restricts (inst : Instance V) (md : Flow.IOMetadata V)
    (O : GoMap String V) (hData : inst.returnData = none) (hErr : inst.returnError = none)
    (hmd : inst.flowDef.Metadata = some md) (hO : md.Output = some O) :
    ∃ m : GoMap String V,
      inst.GetReturnData.1 = (some m, none)
        ∧ ∀ (n : String) (v : V), GoMap.get m n = some v ↔
            (GoMap.get O n ≠ none ∧ GoMap.getNil inst.attrs n = some v) := by
  obtain ⟨m, hm, hspec⟩ := getReturnData_derive inst md O hData hmd hO
  exact ⟨m, by rw [hm, hErr], hspec⟩

/-- With declared outputs `a`, `b` and the attribute `a = 1` alone, the result is
the mapping `a = 1` and the nil error. -/
theorem getReturnData_restricts_witness :
    sampleInst.returnData = none ∧ sampleInst.returnError = none
      ∧ sampleInst.GetReturnData.1 = (some [("a", 1)], none)
      ∧ ∃ m : GoMap String Int,
          sampleInst.GetReturnData.1 = (some m, none)
            ∧ ∀ (n : String) (v : Int), GoMap.get m n = some v ↔
                (GoMap.get [("a", (0 : Int)), ("b", 0)] n ≠ none
                  ∧ GoMap.getNil sampleInst.attrs n = some v) :=
  ⟨rfl, rfl, by decide,
   getReturnData_restricts sampleInst { Input := none, Output := some [("a", 0), ("b", 0)] }
     [("a", 0), ("b", 0)] rfl rfl rfl rfl⟩

/-! ## Status, return and reply -/

/-- C11: `SetStatus(s)` yields a state whose `Status()` is `s`, appends exactly
one StatusChange entry carrying `s` to the change log of the instance's ordinal
(with tracking enabled, and whatever the previous status was, also when it was
`s` already: the call to the tracker is unconditional), and leaves the task table,
the link table, the attributes, the force-completion flag and the return data and
error unchanged. -/
theorem setStatus_spec (inst : Instance V) (s : FlowStatus) :
    (inst.SetStatus s).Status = s
      ∧ (inst.SetStatus s).subFlowId = inst.subFlowId
      ∧ (inst.SetStatus s).master.ChangeTracker.changesOf inst.subFlowId
          = inst.master.ChangeTracker.changesOf inst.subFlowId ++ [Change.status s]
      ∧ ((inst.SetStatus inst.status).master.ChangeTracker.changesOf inst.subFlowId
          = inst.master.ChangeTracker.changesOf inst.subFlowId ++ [Change.status inst.status])
      ∧ (inst.SetStatus s).master.trackingChanges = inst.master.trackingChanges
      ∧ (inst.SetStatus s).taskInsts = inst.taskInsts
      ∧ (inst.SetStatus s).linkInsts = inst.linkInsts
      ∧ (inst.SetStatus s).attrs = inst.attrs
      ∧ (inst.SetStatus s).forceCompletion = inst.forceCompletion
      ∧ (inst.SetStatus s).returnData = inst.returnData
      ∧ (inst.SetStatus s).returnError = inst.returnError := by
  simp [SetStatus, Status, InstanceChangeTracker.SetStatus,
    InstanceChangeTracker.changesOf_append_same]

/-- C13: `Return(d, e)` sets the force-completion flag, stores `d` and `e` as
given, appends no change entry and leaves status, task table, link table and
attributes unchanged; `Return(d1, e1)` followed by `Return(d2, e2)` gives the state
of `Return(d2, e2)` alone, and `GetError()` then returns `e2`. -/
theorem return_spec (inst : Instance V) (d1 d2 : Option (GoMap String V)) (e1 e2 : GoError) :
    (inst.Return d1 e1).forceCompletion = true
      ∧ (inst.Return d1 e1).returnData = d1
      ∧ (inst.Return d1 e1).returnError = e1
      ∧ (inst.Return d1 e1).master = inst.master
      ∧ (inst.Return d1 e1).status = inst.status
      ∧ (inst.Return d1 e1).taskInsts = inst.taskInsts
      ∧ (inst.Return d1 e1).linkInsts = inst.linkInsts
      ∧ (inst.Return d1 e1).attrs = inst.attrs
      ∧ (inst.Return d1 e1).Return d2 e2 = inst.Return d2 e2
      ∧ ((inst.Return d1 e1).Return d2 e2).GetError = e2 := by
  simp [Return, GetError]

/-- C14: `Reply(d, e)` hands exactly one `HandleResult(d, e)` call to the attached
result handler when there is one, and does nothing when there is none; in both
cases the force-completion flag, the status, the return data and error, the
attributes, the task and link tables and the change log stay as they were. -/
theorem reply_spec (inst : Instance V) (d : Option (GoMap String V)) (e : GoError) :
    (∀ h : ResultHandler V, inst.resultHandler = some h →
        (inst.Reply d e).resultHandler = some { handled := h.handled ++ [(d, e)] })
      ∧ (∀ h : ResultHandler V,
          ((inst.SetResultHandler (some h)).Reply d e).resultHandler
            = some { handled := h.handled ++ [(d, e)] })
      ∧ (inst.resultHandler = none → inst.Reply d e = inst)
      ∧ (inst.Reply d e).forceCompletion = inst.forceCompletion
      ∧ (inst.Reply d e).status = inst.status
      ∧ (inst.Reply d e).returnData = inst.returnData
      ∧ (inst.Reply d e).returnError = inst.returnError
      ∧ (inst.Reply d e).attrs = inst.attrs
      ∧ (inst.Reply d e).taskInsts = inst.taskInsts
      ∧ (inst.Reply d e).linkInsts = inst.linkInsts
      ∧ (inst.Reply d e).master = inst.master := by
  cases h : inst.resultHandler with
  | none => simp [Reply, h, SetResultHandler, ResultHandler.HandleResult]
  | some r => simp [Reply, h, SetResultHandler, ResultHandler.HandleResult]

/-- A reply reaches the handler of `sampleHandled` once, and nobody on the sample
instance, which has no handler. -/
theorem reply_spec_witness :
    sampleHandled.resultHandler = some { handled := [] }
      ∧ (sampleHandled.Reply (some [("y", 1)]) none).resultHandler
          = some { handled := [] ++ [(some [("y", 1)], none)] }
      ∧ sampleInst.resultHandler = none
      ∧ sampleInst.Reply (some [("y", 1)]) none = sampleInst :=
  ⟨rfl, (reply_spec sampleHandled (some [("y", 1)]) none).1 { handled := [] } rfl,
   rfl, (reply_spec sampleInst (some [("y", 1)]) none).2.2.1 rfl⟩

/-! ## Bulk update of the attributes -/

/-- The loop of `UpdateAttrs` touches the attribute table only. -/
theorem foldl_setAttrs (m : GoMap String V) (inst : Instance V) :
    m.foldl (fun s e => { s with attrs := s.attrs.map (fun t => GoMap.set t e.1 e.2) }) inst
      = { inst with
          attrs := inst.attrs.map (fun t => m.foldl (fun t e => GoMap.set t e.1 e.2) t) } := by
  induction m generalizing inst with
  | nil =>
    rcases inst with ⟨_, _, _, _, _, _, _, _, _, _, _, a, _, _⟩
    cases a <;> rfl
  | cons e es ih =>
    simp only [List.foldl_cons]
    rw [ih]
    rcases inst with ⟨_, _, _, _, _, _, _, _, _, _, _, a, _, _⟩
    cases a <;> rfl

/-- The method `UpdateAttrs` on a non-nil mapping, in closed form. -/
theorem updateAttrs_some (inst : Instance V) (b : GoMap String V) :
    inst.UpdateAttrs (some b)
      = { inst with
          attrs := some (b.foldl (fun t e => GoMap.set t e.1 e.2) (inst.attrs.getD [])) } := by
  cases h : inst.attrs with
  | none => simp [UpdateAttrs, h, foldl_setAttrs]
  | some t => simp [UpdateAttrs, h, foldl_setAttrs]

/-- A read of a possibly nil table is a read of the table taken as empty. -/
theorem getNil_eq_get_getD (a : Option (GoMap String V)) (n : String) :
    GoMap.getNil a n = GoMap.get (a.getD []) n := by
  cases a <;> simp [GoMap.getNil, GoMap.get]

/-- The table after the assignments of a mapping with distinct keys: a key of the
mapping reads the mapping's value, any other key reads as before. -/
theorem get_foldl_set (b : GoMap String V) (hb : (b.map Prod.fst).Nodup) (t : GoMap String V)
    (k : String) :
    (∀ v : V, GoMap.get b k = some v →
        GoMap.get (b.foldl (fun t e => GoMap.set t e.1 e.2) t) k = some v)
      ∧ (GoMap.get b k = none →
        GoMap.get (b.foldl (fun t e => GoMap.set t e.1 e.2) t) k = GoMap.get t k) := by
  induction b generalizing t with
  | nil => simp [GoMap.get]
  | cons e es ih =>
    obtain ⟨k0, v0⟩ := e
    have hnd : (es.map Prod.fst).Nodup := (List.nodup_cons.mp (by simpa using hb)).2
    have hk0 : k0 ∉ es.map Prod.fst := (List.nodup_cons.mp (by simpa using hb)).1
    simp only [List.foldl_cons]
    by_cases hk : k0 = k
    · subst hk
      have hnone : GoMap.get es k0 = none := by
        by_contra hne
        obtain ⟨e1, he1, hfst⟩ := (get_ne_none_iff es k0).mp hne
        exact hk0 (List.mem_map.mpr ⟨e1, he1, hfst⟩)
      constructor
      · intro v hv
        simp [GoMap.get] at hv
        rw [(ih hnd (GoMap.set t k0 v0)).2 hnone, GoMap.get_set_same, hv]
      · intro hv
        simp [GoMap.get] at hv
    · constructor
      · intro v hv
        simp [GoMap.get, hk] at hv
        exact (ih hnd _).1 v hv
      · intro hv
        simp [GoMap.get, hk] at hv
        rw [(ih hnd _).2 hv, GoMap.get_set_ne _ _ _ _ hk]

/-- C12: after `UpdateAttrs(b)` the call `GetValue(k)` returns `(b[k], true)` for
every key `k` of `b`, and `GetValue(n)` returns what it returned before for every
name `n` that is no key of `b`; with a nil or an empty `b` every `GetValue` result
is as before; and in no case is anything appended to the change log, with
tracking on or off.  A Go map has distinct keys, which the list `b` is asked to
have. -/
theorem updateAttrs_spec (inst : Instance V) (b : GoMap String V)
    (hb : (b.map Prod.fst).Nodup) :
    (∀ (k : String) (v : V), GoMap.get b k = some v →
        ((inst.UpdateAttrs (some b)).GetValue k).1 = some v)
      ∧ (∀ n : String, GoMap.get b n = none →
          ((inst.UpdateAttrs (some b)).GetValue n).1 = (inst.GetValue n).1)
      ∧ (∀ n : String, ((inst.UpdateAttrs none).GetValue n).1 = (inst.GetValue n).1)
      ∧ (∀ n : String, ((inst.UpdateAttrs (some [])).GetValue n).1 = (inst.GetValue n).1)
      ∧ (inst.UpdateAttrs (some b)).master = inst.master
      ∧ (inst.UpdateAttrs none).master = inst.master := by
  have hread : ∀ (c : GoMap String V) (n : String),
      GoMap.getNil (inst.UpdateAttrs (some c)).attrs n
        = GoMap.get (c.foldl (fun t e => GoMap.set t e.1 e.2) (inst.attrs.getD [])) n := by
    intro c n
    rw [updateAttrs_some]
    rfl
  have hdef : ∀ c : GoMap String V, (inst.UpdateAttrs (some c)).flowDef = inst.flowDef := by
    intro c
    rw [updateAttrs_some]
  refine ⟨?_, ?_, ?_, ?_, ?_, ?_⟩
  · intro k v hv
    have h1 := (get_foldl_set b hb (inst.attrs.getD []) k).1 v hv
    simp [GetValue, hread, h1]
  · intro n hn
    have h1 := (get_foldl_set b hb (inst.attrs.getD []) n).2 hn
    simp only [GetValue, hread, h1, hdef, getNil_eq_get_getD inst.attrs n]
    cases GoMap.get (inst.attrs.getD []) n <;> rfl
  · intro n
    simp [UpdateAttrs]
  · intro n
    simp only [GetValue, hread, hdef, getNil_eq_get_getD inst.attrs n, List.foldl_nil]
    cases GoMap.get (inst.attrs.getD []) n <;> rfl
  · rw [updateAttrs_some]
  · simp [UpdateAttrs]

/-- The bulk mapping `a = 2, b = 3` on the sample instance, which holds `a = 1`
and has the default `x = 5`. -/
theorem updateAttrs_spec_witness :
    (sampleBulk.map Prod.fst).Nodup
      ∧ GoMap.get sampleBulk "a" = some 2
      ∧ ((sampleInst.UpdateAttrs (some sampleBulk)).GetValue "a").1 = some 2
      ∧ GoMap.get sampleBulk "x" = none
      ∧ ((sampleInst.UpdateAttrs (some sampleBulk)).GetValue "x").1 = (sampleInst.GetValue "x").1
      ∧ (sampleInst.UpdateAttrs (some sampleBulk)).master = sampleInst.master :=
  ⟨by decide, by decide,
   (updateAttrs_spec sampleInst sampleBulk (by decide)).1 "a" 2 (by decide),
   by decide,
   (updateAttrs_spec sampleInst sampleBulk (by decide)).2.1 "x" (by decide),
   (updateAttrs_spec sampleInst sampleBulk (by decide)).2.2.2.2.1⟩

/-! ## The cached return data -/

/-- Once the return data is stored, a read returns it and changes nothing. -/
theorem getReturnData_stored (inst : Instance V) (m : GoMap String V)
    (h : inst.returnData = some m) :
    inst.GetReturnData = ((some m, inst.returnError), inst) := by
  simp [GetReturnData, h]

/-- Bulk updates and reads keep stored return data and the return error. -/
theorem calls_keep_returnData (cs : List (ScopeCall V)) (inst : Instance V)
    (m : GoMap String V) (h : inst.returnData = some m) :
    (inst.calls cs).returnData = some m ∧ (inst.calls cs).returnError = inst.returnError := by
  induction cs generalizing inst with
  | nil => exact ⟨h, rfl⟩
  | cons c cs ih =>
    have hstep : (inst.call c).returnData = some m
        ∧ (inst.call c).returnError = inst.returnError := by
      cases c with
      | updateAttrs a =>
        cases a with
        | none => exact ⟨h, rfl⟩
        | some b =>
          simp only [call]
          rw [updateAttrs_some]
          exact ⟨h, rfl⟩
      | getReturnData =>
        simp only [call]
        rw [getReturnData_stored inst m h]
        exact ⟨h, rfl⟩
    have hrec := ih (inst.call c) hstep.1
    simp only [calls, List.foldl_cons] at hrec ⊢
    exact ⟨hrec.1, hrec.2.trans hstep.2⟩

/-- C16: on an instance without stored return data (no `Return` call) whose
definition declares outputs, once `GetReturnData()` has returned a map, every
later `GetReturnData()` returns that same map and error, whatever bulk updates of
the attributes and other reads happen in between: the result is stored by the first
call and not derived again. -/
theorem getReturnData_cached (inst : Instance V) (md : Flow.IOMetadata V)
    (O : GoMap String V) (hData : inst.returnData = none)
    (hmd : inst.flowDef.Metadata = some md) (hO : md.Output = some O)
    (cs : List (ScopeCall V)) :
    ((inst.GetReturnData.2.calls cs).GetReturnData).1 = inst.GetReturnData.1
      ∧ inst.GetReturnData.1.1 ≠ none := by
  obtain ⟨m, hm, _⟩ := getReturnData_derive inst md O hData hmd hO
  rw [hm]
  obtain ⟨h1, h2⟩ := calls_keep_returnData cs { inst with returnData := some m } m rfl
  rw [getReturnData_stored _ m h1, h2]
  simp

/-- On the sample instance the first read gives `a = 1`; after the bulk update `a
= 2, b = 3` a read still gives `a = 1`, where a fresh derivation would give `a =
2, b = 3`. -/
theorem getReturnData_cached_witness :
    sampleInst.returnData = none
      ∧ sampleInst.GetReturnData.1 = (some [("a", 1)], none)
      ∧ ((sampleInst.GetReturnData.2.calls
            [ScopeCall.updateAttrs (some sampleBulk)]).GetReturnData).1
          = sampleInst.GetReturnData.1
      ∧ ((sampleInst.UpdateAttrs (some sampleBulk)).GetReturnData).1
          = (some [("a", 2), ("b", 3)], none) :=
  ⟨rfl, by decide,
   (getReturnData_cached sampleInst { Input := none, Output := some [("a", 0), ("b", 0)] }
     [("a", 0), ("b", 0)] rfl rfl rfl [ScopeCall.updateAttrs (some sampleBulk)]).1,
   by decide⟩

/-! ## Frame of the structural operations -/

/-- C18: `FindOrCreateTaskData(T)`, `FindOrCreateLinkData(L)` and `releaseTask(T)`
leave the status, the attribute table, the force-completion flag and the return
data and error unchanged; `FindOrCreateTaskData(T)` and `releaseTask(T)` leave every
task-table entry with an id other than `T` unchanged; and `releaseTask(T)` leaves
every link-table entry whose id is not among the outbound links of `T`
unchanged. -/
theorem structural_frame (inst : Instance V) (task : Task) (link : Link) :
    ((inst.FindOrCreateTaskData task).2.status = inst.status
        ∧ (inst.FindOrCreateTaskData task).2.attrs = inst.attrs
        ∧ (inst.FindOrCreateTaskData task).2.forceCompletion = inst.forceCompletion
        ∧ (inst.FindOrCreateTaskData task).2.returnData = inst.returnData
        ∧ (inst.FindOrCreateTaskData task).2.returnError = inst.returnError)
      ∧ ((inst.FindOrCreateLinkData link).2.status = inst.status
        ∧ (inst.FindOrCreateLinkData link).2.attrs = inst.attrs
        ∧ (inst.FindOrCreateLinkData link).2.forceCompletion = inst.forceCompletion
        ∧ (inst.FindOrCreateLinkData link).2.returnData = inst.returnData
        ∧ (inst.FindOrCreateLinkData link).2.returnError = inst.returnError)
      ∧ ((inst.releaseTask task).status = inst.status
        ∧ (inst.releaseTask task).attrs = inst.attrs
        ∧ (inst.releaseTask task).forceCompletion = inst.forceCompletion
        ∧ (inst.releaseTask task).returnData = inst.returnData
        ∧ (inst.releaseTask task).returnError = inst.returnError)
      ∧ (∀ id : String, id ≠ task.ID →
          GoMap.get (inst.FindOrCreateTaskData task).2.taskInsts id = GoMap.get inst.taskInsts id)
      ∧ (∀ id : String, id ≠ task.ID →
          GoMap.get (inst.releaseTask task).taskInsts id = GoMap.get inst.taskInsts id)
      ∧ (∀ y : Int, (∀ l ∈ task.FromLinks, l.ID ≠ y) →
          GoMap.get (inst.releaseTask task).linkInsts y = GoMap.get inst.linkInsts y) := by
  refine ⟨?_, ?_, ?_, ?_, ?_, ?_⟩
  · cases h : GoMap.get inst.taskInsts task.ID with
    | some t => simp [findOrCreateTaskData_present inst task t h]
    | none => simp [findOrCreateTaskData_absent inst task h]
  · cases h : GoMap.get inst.linkInsts link.ID with
    | some l => simp [findOrCreateLinkData_present inst link l h]
    | none => simp [findOrCreateLinkData_absent inst link h]
  · rw [releaseTask_eq]
    simp
  · intro id hid
    cases h : GoMap.get inst.taskInsts task.ID with
    | some t => simp [findOrCreateTaskData_present inst task t h]
    | none =>
      rw [findOrCreateTaskData_absent inst task h]
      exact GoMap.get_set_ne _ _ _ _ (fun e => hid e.symm)
  · intro id hid
    rw [releaseTask_eq]
    exact GoMap.get_delete_ne _ _ _ (fun e => hid e.symm)
  · intro y hy
    rw [releaseTask_eq]
    exact get_foldl_delete_of_not_mem _ _ y hy

/-- On the busy sample instance, link 1 is no outbound link of the task `U`, and
`T` is another task than `U`. -/
theorem structural_frame_witness :
    ("T" ≠ Task.ID sampleOther
        ∧ GoMap.get (sampleBusy.FindOrCreateTaskData sampleOther).2.taskInsts "T"
            = GoMap.get sampleBusy.taskInsts "T")
      ∧ GoMap.get (sampleBusy.releaseTask sampleOther).taskInsts "T"
          = GoMap.get sampleBusy.taskInsts "T"
      ∧ ((∀ l ∈ Task.FromLinks sampleOther, l.ID ≠ 1)
        ∧ GoMap.get (sampleBusy.releaseTask sampleOther).linkInsts 1
            = GoMap.get sampleBusy.linkInsts 1) :=
  ⟨⟨by decide,
    (structural_frame sampleBusy sampleOther { id := 1 }).2.2.2.1 "T"
      (by decide)⟩,
   (structural_frame sampleBusy sampleOther { id := 1 }).2.2.2.2.1 "T"
     (by decide),
   ⟨by decide,
    (structural_frame sampleBusy sampleOther { id := 1 }).2.2.2.2.2 1
      (by decide)⟩⟩

/-! ## Order of the change log -/

/-- Every structural operation keeps the ordinal of the instance. -/
theorem applyOp_subFlowId (inst : Instance V) (op : StructOp) :
    (inst.applyOp op).subFlowId = inst.subFlowId := by
  cases op with
  | findOrCreateTask task =>
    cases h : GoMap.get inst.taskInsts task.ID with
    | some t => simp [applyOp, findOrCreateTaskData_present inst task t h]
    | none => simp [applyOp, findOrCreateTaskData_absent inst task h]
  | findOrCreateLink link =>
    cases h : GoMap.get inst.linkInsts link.ID with
    | some l => simp [applyOp, findOrCreateLinkData_present inst link l h]
    | none => simp [applyOp, findOrCreateLinkData_absent inst link h]
  | release task =>
    simp only [applyOp]
    rw [releaseTask_eq]

/-- A sequence of structural operations keeps the ordinal of the instance. -/
theorem applyOps_subFlowId (ops : List StructOp) (inst : Instance V) :
    (inst.applyOps ops).subFlowId = inst.subFlowId := by
  induction ops generalizing inst with
  | nil => rfl
  | cons op ops ih =>
    simp only [applyOps, List.foldl_cons] at ih ⊢
    rw [ih, applyOp_subFlowId]

/-- A log has its Adds first when an extension of it has. -/
theorem addsFirst_of_append (log extra : List (Change V)) (h : AddsFirst (log ++ extra)) :
    AddsFirst log := by
  intro pre post c hsplit
  exact h pre (post ++ extra) c (by rw [hsplit]; simp)

/-- One structural operation extends the log of the instance's ordinal. -/
theorem applyOp_log_extends (inst : Instance V) (op : StructOp) :
    ∃ extra, (inst.applyOp op).master.ChangeTracker.changesOf inst.subFlowId
      = inst.master.ChangeTracker.changesOf inst.subFlowId ++ extra := by
  cases op with
  | findOrCreateTask task =>
    simp only [applyOp]
    cases hget : GoMap.get inst.taskInsts task.ID with
    | some t =>
      rw [findOrCreateTaskData_present inst task t hget]
      exact ⟨[], by simp⟩
    | none =>
      rw [findOrCreateTaskData_absent inst task hget]
      exact ⟨_, InstanceChangeTracker.changesOf_append_same _ _ _⟩
  | findOrCreateLink link =>
    simp only [applyOp]
    cases hget : GoMap.get inst.linkInsts link.ID with
    | some l =>
      rw [findOrCreateLinkData_present inst link l hget]
      exact ⟨[], by simp⟩
    | none =>
      rw [findOrCreateLinkData_absent inst link hget]
      exact ⟨_, InstanceChangeTracker.changesOf_append_same _ _ _⟩
  | release task => exact ⟨_, releaseTask_changesOf inst task⟩

/-- A sequence of structural operations extends the log of the instance's
ordinal. -/
theorem applyOps_log_extends (ops : List StructOp) (inst : Instance V) :
    ∃ extra, (inst.applyOps ops).master.ChangeTracker.changesOf inst.subFlowId
      = inst.master.ChangeTracker.changesOf inst.subFlowId ++ extra := by
  induction ops generalizing inst with
  | nil => exact ⟨[], by simp [applyOps]⟩
  | cons op ops ih =>
    obtain ⟨e1, h1⟩ := applyOp_log_extends inst op
    obtain ⟨e2, h2⟩ := ih (inst.applyOp op)
    rw [applyOp_subFlowId, h1] at h2
    refine ⟨e1 ++ e2, ?_⟩
    simp only [applyOps, List.foldl_cons] at h2 ⊢
    rw [h2, List.append_assoc]

/-- A release that does not find the Add of its task, or of one of the task's
outbound links, in the log leaves a log in which a Delete has no Add before it. -/
theorem not_addsFirst_release (inst : Instance V) (task : Task)
    (hop : inst.loggedOp (StructOp.release task) = false) :
    ¬ AddsFirst ((inst.releaseTask task).master.ChangeTracker.changesOf inst.subFlowId) := by
  rw [releaseTask_changesOf]
  intro h
  by_cases hT : (inst.master.ChangeTracker.changesOf inst.subFlowId).any
      (Change.isTaskAdd task.ID) = true
  · have hL : ¬ ∀ l ∈ task.FromLinks,
        (inst.master.ChangeTracker.changesOf inst.subFlowId).any (Change.isLinkAdd l.ID)
          = true := by
      intro hall
      have : inst.loggedOp (StructOp.release task) = true := by
        simp only [loggedOp, Bool.and_eq_true, List.all_eq_true]
        exact ⟨hT, hall⟩
      rw [hop] at this
      cases this
    push_neg at hL
    obtain ⟨l, hl, hmiss⟩ := hL
    obtain ⟨l1, l2, hsplit⟩ := List.append_of_mem hl
    have hlog : inst.master.ChangeTracker.changesOf inst.subFlowId ++
          Change.task { ChgType := ChgType.CtDel, ID := task.ID, TaskInst := none } ::
            task.FromLinks.map (fun l =>
              Change.link { ChgType := ChgType.CtDel, ID := l.ID, LinkInst := none })
        = (inst.master.ChangeTracker.changesOf inst.subFlowId ++
            Change.task { ChgType := ChgType.CtDel, ID := task.ID, TaskInst := none } ::
              l1.map (fun l =>
                Change.link { ChgType := ChgType.CtDel, ID := l.ID, LinkInst := none }))
          ++ Change.link { ChgType := ChgType.CtDel, ID := l.ID, LinkInst := none } ::
              l2.map (fun l =>
                Change.link { ChgType := ChgType.CtDel, ID := l.ID, LinkInst := none }) := by
      rw [hsplit]
      simp
    obtain ⟨li, hmem⟩ := (h _ _ _ hlog).2 _ rfl (fun e => ChgType.noConfusion e)
    rcases List.mem_append.mp hmem with hmem | hmem
    · apply hmiss
      exact List.any_eq_true.mpr ⟨_, hmem, by simp [Change.isLinkAdd]⟩
    · rcases List.mem_cons.mp hmem with hmem | hmem
      · cases hmem
      · obtain ⟨k, _, hk⟩ := List.mem_map.mp hmem
        cases hk
  · obtain ⟨t, hmem⟩ := (h _ _ _ rfl).1 _ rfl (fun e => ChgType.noConfusion e)
    apply hT
    exact List.any_eq_true.mpr ⟨_, hmem, by simp [Change.isTaskAdd]⟩

/-- The condition on the releases is the weakest one: when the log of a sequence
of structural operations has its Adds first, every release of the sequence found
the Adds of its task and of the task's outbound links in the log. -/
theorem releasesLogged_of_addsFirst (ops : List StructOp) (inst : Instance V)
    (h : AddsFirst ((inst.applyOps ops).master.ChangeTracker.changesOf inst.subFlowId)) :
    inst.releasesLogged ops = true := by
  induction ops generalizing inst with
  | nil => rfl
  | cons op ops ih =>
    simp only [applyOps, List.foldl_cons] at h
    have hrest : (inst.applyOp op).releasesLogged ops = true := by
      apply ih
      rw [applyOp_subFlowId]
      exact h
    have hop : inst.loggedOp op = true := by
      cases op with
      | findOrCreateTask task => rfl
      | findOrCreateLink link => rfl
      | release task =>
        by_contra hno
        have hfalse : inst.loggedOp (StructOp.release task) = false := by
          simpa using hno
        obtain ⟨extra, hext⟩ := applyOps_log_extends ops (inst.applyOp (StructOp.release task))
        rw [applyOp_subFlowId] at hext
        have h2 : AddsFirst ((inst.applyOp (StructOp.release task)).master.ChangeTracker.changesOf
            inst.subFlowId ++ extra) := by
          rw [← hext]
          exact h
        exact not_addsFirst_release inst task hfalse (addsFirst_of_append _ _ h2)
    simp only [releasesLogged, Bool.and_eq_true]
    exact ⟨hop, hrest⟩

/-! ## Injectivity of the id -/

/-- The digit character of a number below ten has that number as its value. -/
theorem digitValue_digitChar (d : Nat) (hd : d < 10) : digitValue (Nat.digitChar d) = d := by
  interval_cases d <;> rfl

/-- Reading back the digits the library writes in front of `ds`. -/
theorem foldl_toDigitsCore (fuel n : Nat) (ds : List Char) (hn : n < fuel) :
    (Nat.toDigitsCore 10 fuel n ds).foldl (fun acc c => acc * 10 + digitValue c) 0
      = ds.foldl (fun acc c => acc * 10 + digitValue c) n := by
  induction fuel generalizing n ds with
  | zero => exact absurd hn (Nat.not_lt_zero n)
  | succ fuel ih =>
    simp only [Nat.toDigitsCore]
    by_cases h0 : n / 10 = 0
    · have hlt : n < 10 := by omega
      simp only [h0, if_true, List.foldl_cons, Nat.zero_mul, Nat.zero_add]
      rw [digitValue_digitChar _ (Nat.mod_lt _ (by decide)), Nat.mod_eq_of_lt hlt]
    · simp only [h0, if_false]
      rw [ih (n / 10) _ (by omega)]
      simp only [List.foldl_cons]
      rw [digitValue_digitChar _ (Nat.mod_lt _ (by decide))]
      congr 1
      omega

/-- The decimal numeral of a natural number denotes that number. -/
theorem decimalValue_repr (n : Nat) : decimalValue (Nat.repr n).data = n := by
  simp only [Nat.repr, Nat.toDigits, List.asString, decimalValue]
  rw [foldl_toDigitsCore (n + 1) n [] (Nat.lt_succ_self n)]
  rfl

/-- The numerals `strconv.Itoa` writes for two different non-negative integers
are different. -/
theorem Itoa_injective (j k : Int) (hj : 0 ≤ j) (hk : 0 ≤ k) (h : Itoa j = Itoa k) : j = k := by
  obtain ⟨a, rfl⟩ := Int.eq_ofNat_of_zero_le hj
  obtain ⟨b, rfl⟩ := Int.eq_ofNat_of_zero_le hk
  have hab : Nat.repr a = Nat.repr b := h
  have hval := congrArg (fun s => decimalValue s.data) hab
  simp only [decimalValue_repr] at hval
  rw [hval]

/-- The two branches of `ID`. -/
theorem ID_branches (inst : Instance V) :
    (0 < inst.subFlowId → inst.ID = inst.master.id ++ "-" ++ Itoa inst.subFlowId)
      ∧ (¬ 0 < inst.subFlowId → inst.ID = inst.master.id) := by
  constructor
  · intro h
    simp [ID, h]
  · intro h
    simp [ID, h]

/-- A string is not itself followed by a dash and more. -/
theorem ne_append_dash (r x : String) : r ≠ r ++ "-" ++ x := by
  intro h
  have hlen := congrArg String.length h
  simp only [String.length_append] at hlen
  have h1 : ("-" : String).length = 1 := rfl
  omega

/-- What follows the root id and the dash is determined by the whole id. -/
theorem append_dash_cancel (r x y : String) (h : r ++ "-" ++ x = r ++ "-" ++ y) : x = y := by
  have hdata := congrArg String.data h
  simp only [String.data_append] at hdata
  exact String.ext (List.append_cancel_left hdata)

/-- C17: for a fixed root id the id is injective on the non-negative ordinals:
two instances of one root with different ordinals `j, k ≥ 0` have different ids;
across root ids it is not: root `R1-3` with ordinal 0 and root `R1` with ordinal
3 are different roots with the one id `R1-3`. -/
theorem ID_injective_per_root (a b : Instance V) (hroot : a.master.id = b.master.id)
    (ha : 0 ≤ a.subFlowId) (hb : 0 ≤ b.subFlowId) (hne : a.subFlowId ≠ b.subFlowId) :
    a.ID ≠ b.ID
      ∧ (sampleDashed.master.id ≠ sampleInst.master.id
        ∧ sampleDashed.subFlowId = 0 ∧ sampleInst.subFlowId = 3
        ∧ sampleDashed.ID = sampleInst.ID) := by
  refine ⟨?_, by decide⟩
  intro h
  by_cases ha0 : 0 < a.subFlowId
  · by_cases hb0 : 0 < b.subFlowId
    · rw [(ID_branches a).1 ha0, (ID_branches b).1 hb0, hroot] at h
      exact hne (Itoa_injective _ _ ha hb (append_dash_cancel _ _ _ h))
    · rw [(ID_branches a).1 ha0, (ID_branches b).2 hb0, hroot] at h
      exact ne_append_dash _ _ h.symm
  · by_cases hb0 : 0 < b.subFlowId
    · rw [(ID_branches a).2 ha0, (ID_branches b).1 hb0, hroot] at h
      exact ne_append_dash _ _ h
    · exact hne (by omega)

/-- The sample instance (ordinal 3) and the root instance (ordinal 0) of root
`R1` have different ids. -/
theorem ID_injective_per_root_witness :
    sampleInst.master.id = sampleRoot.master.id
      ∧ 0 ≤ sampleInst.subFlowId ∧ 0 ≤ sampleRoot.subFlowId
      ∧ sampleInst.subFlowId ≠ sampleRoot.subFlowId
      ∧ sampleInst.ID ≠ sampleRoot.ID :=
  ⟨rfl, by decide, by decide, by decide,
   (ID_injective_per_root sampleInst sampleRoot rfl (by decide) (by decide) (by decide)).1⟩

end Instance

end Flow
